import Mathlib

/-!
Verification of the mayday-website repository against its specification.

The Python sources are shallowly embedded: pure functions become Lean
functions, database tables become lists of row structures threaded through
the operations, clock reads become explicit time parameters, and fallible
code returns Except / Option. Library primitives that live outside the
repository (the PBKDF2 digest, the network, the database column defaults
declared in schema.json) are modelled explicitly where the embedding needs
them; each such model is documented at its definition site.
-/

namespace Mayday

/-! ## Python string primitives used by the data layer -/

/-- Auxiliary for the Python str.split(sep) semantics on a character list:
splitting always yields one more part than there are separator occurrences,
so the empty list splits to one empty part. -/
def pySplitAux (sep : Char) : List Char → List (List Char)
  | [] => [[]]
  | c :: rest =>
    let acc := pySplitAux sep rest
    if c = sep then [] :: acc
    else
      match acc with
      | [] => [[c]]
      | h :: t => (c :: h) :: t

/-- Python str.split(sep) with an explicit single-character separator
(as used by password_hash.split on the dollar sign and by the section
option tag split on a space). -/
def pySplit (sep : Char) (s : String) : List String :=
  (pySplitAux sep s.data).map String.mk

/-- Boolean check that a string contains no occurrence of the given
character. -/
def hasNoChar (sep : Char) (s : String) : Bool :=
  s.data.all (fun c => !(c = sep))

theorem pySplitAux_ne_nil (sep : Char) (l : List Char) :
    pySplitAux sep l ≠ [] := by
  cases l with
  | nil => simp [pySplitAux]
  | cons c rest =>
    simp only [pySplitAux]
    by_cases h : c = sep
    · simp [h]
    · simp only [if_neg h]
      match pySplitAux sep rest with
      | [] => simp
      | h2 :: t => simp

/-- Splitting a separator-free character list yields the single whole part. -/
theorem pySplitAux_no_sep (sep : Char) (l : List Char)
    (h : ∀ c ∈ l, c ≠ sep) : pySplitAux sep l = [l] := by
  induction l with
  | nil => rfl
  | cons c rest ih =>
    have hc : c ≠ sep := h c (List.mem_cons_self c rest)
    have hrest : ∀ x ∈ rest, x ≠ sep := fun x hx => h x (List.mem_cons_of_mem c hx)
    simp only [pySplitAux, if_neg hc, ih hrest]

/-- Splitting a ++ sep :: b where a is separator-free peels off a as the
first part. -/
theorem pySplitAux_append (sep : Char) (a b : List Char)
    (h : ∀ c ∈ a, c ≠ sep) :
    pySplitAux sep (a ++ sep :: b) = a :: pySplitAux sep b := by
  induction a with
  | nil => simp [pySplitAux]
  | cons c rest ih =>
    have hc : c ≠ sep := h c (List.mem_cons_self c rest)
    have hrest : ∀ x ∈ rest, x ≠ sep := fun x hx => h x (List.mem_cons_of_mem c hx)
    have h2 := ih hrest
    simp only [List.cons_append, pySplitAux, if_neg hc]
    rw [show rest.append (sep :: b) = rest ++ sep :: b from rfl, h2]

/-! ## Password hashing (PostgresDataLayer.hash_password / verify_password)

The repository calls hashlib.pbkdf2_hmac('sha256', password, salt, 100000)
and stores the digest in lowercase hexadecimal. The library digest itself is
not repository code; it is modelled here by an executable function of the
(password, salt) pair that shares the properties the data layer relies on:
its output is made only of lowercase-hex-like characters (in particular it
never contains the dollar separator), and distinct inputs give distinct
digests (the cryptographic collision-freedom idealization of the PRF). -/

/-- Lowercase hexadecimal digit characters, indexed 0 to 15. -/
def hexDigit : Nat → Char
  | 0 => '0' | 1 => '1' | 2 => '2' | 3 => '3'
  | 4 => '4' | 5 => '5' | 6 => '6' | 7 => '7'
  | 8 => '8' | 9 => '9' | 10 => 'a' | 11 => 'b'
  | 12 => 'c' | 13 => 'd' | 14 => 'e' | _ => 'f'

/-- Eight-hex-digit big-endian encoding of a character codepoint (a UInt32
value, hence below 16 ^ 8). -/
def encChar (c : Char) : List Char :=
  [hexDigit (c.toNat / 16 ^ 7 % 16), hexDigit (c.toNat / 16 ^ 6 % 16),
   hexDigit (c.toNat / 16 ^ 5 % 16), hexDigit (c.toNat / 16 ^ 4 % 16),
   hexDigit (c.toNat / 16 ^ 3 % 16), hexDigit (c.toNat / 16 ^ 2 % 16),
   hexDigit (c.toNat / 16 % 16), hexDigit (c.toNat % 16)]

/-- Hex encoding of a character list, eight digits per character. -/
def encChars (l : List Char) : List Char :=
  (l.map encChar).flatten

/-- Model of the library digest hashlib.pbkdf2_hmac('sha256', password,
salt, 100000).hex(): an injective executable function of the
(password, salt) pair whose output consists of hex digits and the letter g
only — like the real hex digest it never contains the dollar character that
verify_password splits on. -/
def pbkdf2_sha256_hex (password salt : String) : String :=
  String.mk (encChars password.data ++ 'g' :: encChars salt.data)

/-- PostgresDataLayer.hash_password. The salt produced by
secrets.token_hex(16) — a random 32-character lowercase-hex string — is an
explicit parameter of the embedding, since its generation is nondeterministic. -/
def hash_password (password salt : String) : String :=
  salt ++ "$" ++ pbkdf2_sha256_hex password salt

/-- PostgresDataLayer.verify_password: split the stored hash on the dollar
character; Python tuple unpacking raises ValueError unless the split gives
exactly two parts, and the except clause turns that into False. -/
def verify_password (password stored : String) : Bool :=
  match pySplit '$' stored with
  | [salt, storedHash] => pbkdf2_sha256_hex password salt == storedHash
  | _ => false

theorem hexDigit_ne_dollar (n : Nat) : hexDigit n ≠ '$' := by
  unfold hexDigit; split <;> decide

theorem hexDigit_ne_g (n : Nat) : hexDigit n ≠ 'g' := by
  unfold hexDigit; split <;> decide

theorem hexDigit_inj : ∀ a < 16, ∀ b < 16, hexDigit a = hexDigit b → a = b := by
  decide

theorem encChar_length (c : Char) : (encChar c).length = 8 := rfl

theorem encChar_ne_dollar (c : Char) : ∀ x ∈ encChar c, x ≠ '$' := by
  intro x hx
  simp only [encChar, List.mem_cons, List.not_mem_nil, or_false] at hx
  rcases hx with h | h | h | h | h | h | h | h <;>
    (subst h; exact hexDigit_ne_dollar _)

theorem encChar_ne_g (c : Char) : ∀ x ∈ encChar c, x ≠ 'g' := by
  intro x hx
  simp only [encChar, List.mem_cons, List.not_mem_nil, or_false] at hx
  rcases hx with h | h | h | h | h | h | h | h <;>
    (subst h; exact hexDigit_ne_g _)

theorem encChars_ne_dollar (l : List Char) : ∀ x ∈ encChars l, x ≠ '$' := by
  intro x hx
  simp only [encChars, List.mem_flatten, List.mem_map] at hx
  obtain ⟨blk, ⟨c, _, hblk⟩, hxblk⟩ := hx
  exact encChar_ne_dollar c x (hblk ▸ hxblk)

theorem encChars_ne_g (l : List Char) : ∀ x ∈ encChars l, x ≠ 'g' := by
  intro x hx
  simp only [encChars, List.mem_flatten, List.mem_map] at hx
  obtain ⟨blk, ⟨c, _, hblk⟩, hxblk⟩ := hx
  exact encChar_ne_g c x (hblk ▸ hxblk)

theorem char_toNat_lt (c : Char) : c.toNat < 16 ^ 8 := by
  have h : c.val.toNat < 2 ^ 32 := c.val.toNat_lt
  simpa [Char.toNat] using lt_of_lt_of_le h (by norm_num)

theorem encChar_inj {c d : Char} (h : encChar c = encChar d) : c = d := by
  simp only [encChar, List.cons.injEq, and_true] at h
  obtain ⟨h7, h6, h5, h4, h3, h2, h1, h0⟩ := h
  have e7 := hexDigit_inj _ (Nat.mod_lt _ (by norm_num)) _ (Nat.mod_lt _ (by norm_num)) h7
  have e6 := hexDigit_inj _ (Nat.mod_lt _ (by norm_num)) _ (Nat.mod_lt _ (by norm_num)) h6
  have e5 := hexDigit_inj _ (Nat.mod_lt _ (by norm_num)) _ (Nat.mod_lt _ (by norm_num)) h5
  have e4 := hexDigit_inj _ (Nat.mod_lt _ (by norm_num)) _ (Nat.mod_lt _ (by norm_num)) h4
  have e3 := hexDigit_inj _ (Nat.mod_lt _ (by norm_num)) _ (Nat.mod_lt _ (by norm_num)) h3
  have e2 := hexDigit_inj _ (Nat.mod_lt _ (by norm_num)) _ (Nat.mod_lt _ (by norm_num)) h2
  have e1 := hexDigit_inj _ (Nat.mod_lt _ (by norm_num)) _ (Nat.mod_lt _ (by norm_num)) h1
  have e0 := hexDigit_inj _ (Nat.mod_lt _ (by norm_num)) _ (Nat.mod_lt _ (by norm_num)) h0
  have hc := char_toNat_lt c
  have hd := char_toNat_lt d
  have : c.toNat = d.toNat := by
    have p8 : (16 : Nat) ^ 8 = 4294967296 := by norm_num
    have p7 : (16 : Nat) ^ 7 = 268435456 := by norm_num
    have p6 : (16 : Nat) ^ 6 = 16777216 := by norm_num
    have p5 : (16 : Nat) ^ 5 = 1048576 := by norm_num
    have p4 : (16 : Nat) ^ 4 = 65536 := by norm_num
    have p3 : (16 : Nat) ^ 3 = 4096 := by norm_num
    have p2 : (16 : Nat) ^ 2 = 256 := by norm_num
    rw [p8] at hc hd
    rw [p7] at e7; rw [p6] at e6; rw [p5] at e5
    rw [p4] at e4; rw [p3] at e3; rw [p2] at e2
    omega
  exact Char.ext (UInt32.ext (by simpa [Char.toNat] using this))

theorem encChars_inj : ∀ {l m : List Char}, encChars l = encChars m → l = m := by
  intro l
  induction l with
  | nil =>
    intro m h
    cases m with
    | nil => rfl
    | cons c rest =>
      exfalso
      have : (encChars ([] : List Char)).length = (encChars (c :: rest)).length := by rw [h]
      simp only [encChars, List.length_flatten, List.map_nil, List.map_cons, List.sum_nil,
        List.sum_cons, List.map_map] at this
      simp [encChar_length] at this
      omega
  | cons c rest ih =>
    intro m h
    cases m with
    | nil =>
      exfalso
      have : (encChars (c :: rest)).length = (encChars ([] : List Char)).length := by rw [h]
      simp only [encChars, List.length_flatten, List.map_nil, List.map_cons, List.sum_nil,
        List.sum_cons, List.map_map] at this
      simp [encChar_length] at this
    | cons d mrest =>
      simp only [encChars, List.map_cons, List.flatten_cons] at h
      have hlen : (encChar c).length = (encChar d).length := by
        rw [encChar_length, encChar_length]
      obtain ⟨hblk, hrest⟩ := List.append_inj h hlen
      have hcd : c = d := encChar_inj hblk
      have : rest = mrest := ih (by simpa [encChars] using hrest)
      rw [hcd, this]

/-- Unique decomposition around a separator occurrence when both front parts
are separator-free. -/
theorem sep_decomp {sep : Char} :
    ∀ {a b : List Char} {t u : List Char}, (∀ c ∈ a, c ≠ sep) → (∀ c ∈ b, c ≠ sep) →
    a ++ sep :: t = b ++ sep :: u → a = b ∧ t = u := by
  intro a
  induction a with
  | nil =>
    intro b t u _ hb h
    cases b with
    | nil => simpa using h
    | cons x bs =>
      exfalso
      simp only [List.nil_append, List.cons_append, List.cons.injEq] at h
      exact hb x (List.mem_cons_self x bs) h.1.symm
  | cons x xs ih =>
    intro b t u ha hb h
    cases b with
    | nil =>
      exfalso
      simp only [List.cons_append, List.nil_append, List.cons.injEq] at h
      exact ha x (List.mem_cons_self x xs) h.1
    | cons y bs =>
      simp only [List.cons_append, List.cons.injEq] at h
      obtain ⟨hxy, hrest⟩ := h
      have hxs : ∀ c ∈ xs, c ≠ sep := fun c hc => ha c (List.mem_cons_of_mem x hc)
      have hbs : ∀ c ∈ bs, c ≠ sep := fun c hc => hb c (List.mem_cons_of_mem y hc)
      obtain ⟨h1, h2⟩ := ih hxs hbs hrest
      exact ⟨by rw [hxy, h1], h2⟩

theorem pbkdf2_inj_password {p q salt : String}
    (h : pbkdf2_sha256_hex p salt = pbkdf2_sha256_hex q salt) : p = q := by
  have hdata : encChars p.data ++ 'g' :: encChars salt.data
      = encChars q.data ++ 'g' :: encChars salt.data := by
    have := congrArg String.data h
    simpa [pbkdf2_sha256_hex] using this
  have := sep_decomp (encChars_ne_g p.data) (encChars_ne_g q.data) hdata
  have hpq : p.data = q.data := encChars_inj this.1
  cases p; cases q; exact congrArg String.mk hpq

theorem pbkdf2_ne_dollar (p salt : String) :
    ∀ c ∈ (pbkdf2_sha256_hex p salt).data, c ≠ '$' := by
  intro c hc
  simp only [pbkdf2_sha256_hex] at hc
  rcases List.mem_append.mp hc with h | h
  · exact encChars_ne_dollar _ c h
  · rcases List.mem_cons.mp h with h | h
    · subst h; decide
    · exact encChars_ne_dollar _ c h

/-- Verification of a well-formed stored hash reduces to a digest comparison. -/
theorem verify_hash_eval (password p salt : String)
    (hsalt : hasNoChar '$' salt = true) :
    verify_password password (hash_password p salt)
      = (pbkdf2_sha256_hex password salt == pbkdf2_sha256_hex p salt) := by
  have hsalt2 : ∀ c ∈ salt.data, c ≠ '$' := by
    intro c hc
    have := (List.all_eq_true.mp hsalt) c hc
    simpa using this
  have hdata : (hash_password p salt).data
      = salt.data ++ '$' :: (pbkdf2_sha256_hex p salt).data := by
    simp [hash_password, String.data_append]
  have hsplit : pySplitAux '$' (hash_password p salt).data
      = [salt.data, (pbkdf2_sha256_hex p salt).data] := by
    rw [hdata, pySplitAux_append '$' _ _ hsalt2,
        pySplitAux_no_sep '$' _ (pbkdf2_ne_dollar p salt)]
  simp only [verify_password, pySplit, hsplit, List.map_cons, List.map_nil]

/-- C3: for every password p (and every salt the generator can produce, a
hex string and hence dollar-free), verify_password(p, hash_password(p))
returns true; for every password q distinct from p, verify_password(q,
hash_password(p)) returns false; and for every stored hash string lacking
the dollar separator, verify_password returns false rather than raising. -/
theorem C3_password_hash_roundtrip (p q salt h : String)
    (hsalt : hasNoChar '$' salt = true) (hq : q ≠ p)
    (hh : hasNoChar '$' h = true) :
    verify_password p (hash_password p salt) = true
      ∧ verify_password q (hash_password p salt) = false
      ∧ verify_password p h = false := by
  refine ⟨?_, ?_, ?_⟩
  · rw [verify_hash_eval p p salt hsalt]
    exact beq_self_eq_true _
  · rw [verify_hash_eval q p salt hsalt]
    by_contra hcontra
    rw [Bool.not_eq_false, beq_iff_eq] at hcontra
    exact hq (pbkdf2_inj_password hcontra)
  · have hnd : ∀ c ∈ h.data, c ≠ '$' := by
      intro c hc
      have := (List.all_eq_true.mp hh) c hc
      simpa using this
    simp only [verify_password, pySplit, pySplitAux_no_sep '$' _ hnd,
      List.map_cons, List.map_nil]

theorem C3_password_hash_roundtrip_witness :
    hasNoChar '$' "ab" = true ∧ ("qw" : String) ≠ "pw"
      ∧ hasNoChar '$' "deadbeef" = true
      ∧ (verify_password "pw" (hash_password "pw" "ab") = true
         ∧ verify_password "qw" (hash_password "pw" "ab") = false
         ∧ verify_password "pw" "deadbeef" = false) :=
  ⟨by decide, by decide, by decide,
   C3_password_hash_roundtrip "pw" "qw" "ab" "deadbeef"
     (by decide) (by decide) (by decide)⟩

/-! ## Sessions (session table, verify_session, create_session, SessionTracker)

The session table is embedded as a list of rows; the clock is an explicit
parameter measured in minutes. SESSION_TIMEOUT defaults to 60 minutes. -/

/-- One row of the session table. -/
structure SessionRow where
  cookie : String
  timestamp : Int
  username : String
  admin : Bool
  meta : String
deriving Repr, DecidableEq

/-- Configured session timeout in minutes (environment default 60). -/
def SESSION_TIMEOUT : Int := 60

/-- SELECT * FROM session WHERE cookie = %s with fetchone: the first
matching row, if any. -/
def find_session (sessions : List SessionRow) (ck : String) : Option SessionRow :=
  sessions.find? (fun r => r.cookie = ck)

/-- PostgresDataLayer.update_session specialized to a field update: the SQL
UPDATE touches every row whose cookie matches (the guard reduces to a no-op
when the cookie is absent, which the map already is). -/
def update_session (sessions : List SessionRow) (ck : String)
    (f : SessionRow → SessionRow) : List SessionRow :=
  sessions.map (fun r => if r.cookie = ck then f r else r)

/-- PostgresDataLayer.delete_session: DELETE FROM session WHERE cookie = %s. -/
def delete_session (sessions : List SessionRow) (ck : String) : List SessionRow :=
  sessions.filter (fun r => !(r.cookie = ck))

/-- PostgresDataLayer.verify_session: returns the privilege verdict and the
resulting session table. The verdict is set from the stored admin flag as
soon as the row is loaded; the expiry branches then mutate the table. -/
def verify_session (now : Int) (sessions : List SessionRow) (cookie : Option String)
    (update_ts : Bool) (delete_if_expired : Bool) : Bool × List SessionRow :=
  match cookie with
  | none => (false, sessions)
  | some ck =>
    match find_session sessions ck with
    | none => (false, sessions)
    | some s =>
      let cookie_is_privileged := s.admin
      let cutoff_time := now - SESSION_TIMEOUT
      if s.timestamp > cutoff_time then
        (cookie_is_privileged,
         if update_ts then update_session sessions ck (fun r => { r with timestamp := now })
         else sessions)
      else if delete_if_expired then
        (cookie_is_privileged, delete_session sessions ck)
      else
        (cookie_is_privileged, update_session sessions ck (fun r => { r with admin := false }))

/-- One pass of SessionTracker.run: snapshot the session rows, then call
verify_session on each snapshotted cookie with update_ts=False and
delete_if_expired=True. -/
def session_tracker_sweep (now : Int) (sessions : List SessionRow) : List SessionRow :=
  (sessions.map SessionRow.cookie).foldl
    (fun st ck => (verify_session now st (some ck) false true).2) sessions

/-- Sweep step on a cookie with no session row: the table is unchanged. -/
theorem sweep_step_none (now : Int) (st : List SessionRow) (ck : String)
    (hfind : find_session st ck = none) :
    (verify_session now st (some ck) false true).2 = st := by
  simp [verify_session, hfind]

/-- Sweep step on a fresh row: the table is unchanged (no timestamp refresh
because update_ts is false). -/
theorem sweep_step_fresh (now : Int) (st : List SessionRow) (ck : String)
    (s : SessionRow) (hfind : find_session st ck = some s)
    (hfresh : s.timestamp > now - SESSION_TIMEOUT) :
    (verify_session now st (some ck) false true).2 = st := by
  simp [verify_session, hfind, hfresh]

/-- Sweep step on an expired row: the row is deleted. -/
theorem sweep_step_expired (now : Int) (st : List SessionRow) (ck : String)
    (s : SessionRow) (hfind : find_session st ck = some s)
    (hexp : ¬(s.timestamp > now - SESSION_TIMEOUT)) :
    (verify_session now st (some ck) false true).2 = delete_session st ck := by
  simp [verify_session, hfind, hexp]

theorem nodup_cookie_filter (p : SessionRow → Bool) (l : List SessionRow)
    (h : (l.map SessionRow.cookie).Nodup) :
    ((l.filter p).map SessionRow.cookie).Nodup :=
  List.Nodup.sublist (List.Sublist.map _ (List.filter_sublist l)) h

/-- Folding the sweep step over a duplicate-free table keeps exactly the
rows that are fresh or whose cookie is not among the processed cookies. -/
theorem sweep_fold (now : Int) :
    ∀ (cks : List String) (st : List SessionRow),
    ((st.map SessionRow.cookie).Nodup) →
    List.foldl (fun acc ck => (verify_session now acc (some ck) false true).2) st cks
      = st.filter (fun r =>
          decide (r.timestamp > now - SESSION_TIMEOUT) || !(decide (r.cookie ∈ cks))) := by
  intro cks
  induction cks with
  | nil =>
    intro st _
    simp
  | cons ck cks ih =>
    intro st hnd
    simp only [List.foldl_cons]
    cases hfind : find_session st ck with
    | none =>
      rw [sweep_step_none now st ck hfind, ih st hnd]
      apply List.filter_congr
      intro r hr
      have hne : ¬(r.cookie = ck) := by
        have := List.find?_eq_none.mp hfind r hr
        simpa using this
      simp [List.mem_cons, hne]
    | some s =>
      have hs_mem : s ∈ st := List.mem_of_find?_eq_some hfind
      have hs_ck : s.cookie = ck := by
        have := List.find?_some hfind
        simpa using this
      have huniq : ∀ r ∈ st, r.cookie = ck → r = s := by
        intro r hr hrck
        exact List.inj_on_of_nodup_map hnd hr hs_mem (by rw [hrck, hs_ck])
      by_cases hfresh : s.timestamp > now - SESSION_TIMEOUT
      · rw [sweep_step_fresh now st ck s hfind hfresh, ih st hnd]
        apply List.filter_congr
        intro r hr
        by_cases hck : r.cookie = ck
        · have : r = s := huniq r hr hck
          subst this
          simp [hfresh]
        · simp [List.mem_cons, hck]
      · rw [sweep_step_expired now st ck s hfind hfresh]
        have hnd2 : ((delete_session st ck).map SessionRow.cookie).Nodup :=
          nodup_cookie_filter _ st hnd
        rw [ih _ hnd2]
        simp only [delete_session, List.filter_filter]
        apply List.filter_congr
        intro r hr
        by_cases hck : r.cookie = ck
        · have : r = s := huniq r hr hck
          subst this
          simp [hfresh, hs_ck, List.mem_cons]
        · simp [List.mem_cons, hck]

/-- With duplicate-free cookies, one tracker sweep deletes exactly the
expired rows. -/
theorem session_tracker_sweep_eq_filter (now : Int) (sessions : List SessionRow)
    (hnd : (sessions.map SessionRow.cookie).Nodup) :
    session_tracker_sweep now sessions
      = sessions.filter (fun r => decide (r.timestamp > now - SESSION_TIMEOUT)) := by
  unfold session_tracker_sweep
  rw [sweep_fold now (sessions.map SessionRow.cookie) sessions hnd]
  apply List.filter_congr
  intro r hr
  have hmem : r.cookie ∈ sessions.map SessionRow.cookie :=
    List.mem_map_of_mem SessionRow.cookie hr
  simp [hmem]

/-- C1, counterexample: a session whose stored admin flag is true and whose
timestamp is 61 minutes in the past is reported as PRIVILEGED by
verify_session (the verdict is taken from the stored flag before the expiry
check and is never cleared in the expired branches), even though the sweep
call does delete the row; the claim says an expired row is reported as not
privileged. -/
theorem C1_session_expiry_counterexample :
    (verify_session 61 [⟨"c1", 0, "admin", true, ""⟩] (some "c1") false true).1 = true
      ∧ (verify_session 61 [⟨"c1", 0, "admin", true, ""⟩] (some "c1") false true).2 = [] := by
  constructor <;> rfl

/-- C1, amended: for a session row whose timestamp is more than
SESSION_TIMEOUT (60) minutes in the past, verify_session reports the
row's STORED admin flag (not necessarily unprivileged) and the sweep call
(update_ts=False, delete_if_expired=True) deletes the row; for a row
touched less than 60 minutes ago the stored admin flag is reported and the
row is not deleted; a full tracker sweep over a duplicate-free table
deletes exactly the expired rows. -/
theorem C1_session_expiry_sweep (now : Int) (sessions : List SessionRow)
    (s : SessionRow) (hfind : find_session sessions s.cookie = some s)
    (hnd : (sessions.map SessionRow.cookie).Nodup) :
    (s.timestamp < now - SESSION_TIMEOUT →
      verify_session now sessions (some s.cookie) false true
        = (s.admin, delete_session sessions s.cookie)
      ∧ ∀ r ∈ (verify_session now sessions (some s.cookie) false true).2,
          r.cookie ≠ s.cookie)
    ∧ (s.timestamp > now - SESSION_TIMEOUT →
      verify_session now sessions (some s.cookie) false true = (s.admin, sessions))
    ∧ session_tracker_sweep now sessions
        = sessions.filter (fun r => decide (r.timestamp > now - SESSION_TIMEOUT)) := by
  refine ⟨?_, ?_, session_tracker_sweep_eq_filter now sessions hnd⟩
  · intro hexp
    have hexp2 : ¬(s.timestamp > now - SESSION_TIMEOUT) := by omega
    constructor
    · simp [verify_session, hfind, hexp2]
    · intro r hr
      rw [sweep_step_expired now sessions s.cookie s hfind hexp2] at hr
      have := List.of_mem_filter hr
      simpa using this
  · intro hfresh
    simp [verify_session, hfind, hfresh]

theorem C1_session_expiry_sweep_witness :
    (find_session [⟨"c1", 0, "admin", true, ""⟩] "c1" = some ⟨"c1", 0, "admin", true, ""⟩
      ∧ ([⟨"c1", 0, "admin", true, ""⟩].map SessionRow.cookie).Nodup)
    ∧ ((0 : Int) < 61 - SESSION_TIMEOUT →
        verify_session 61 [⟨"c1", 0, "admin", true, ""⟩] (some "c1") false true
          = (true, delete_session [⟨"c1", 0, "admin", true, ""⟩] "c1")
        ∧ ∀ r ∈ (verify_session 61 [⟨"c1", 0, "admin", true, ""⟩] (some "c1") false true).2,
            r.cookie ≠ "c1")
      ∧ ((0 : Int) > 61 - SESSION_TIMEOUT →
        verify_session 61 [⟨"c1", 0, "admin", true, ""⟩] (some "c1") false true
          = (true, [⟨"c1", 0, "admin", true, ""⟩]))
      ∧ session_tracker_sweep 61 [⟨"c1", 0, "admin", true, ""⟩]
          = [⟨"c1", 0, "admin", true, ""⟩].filter
              (fun r => decide (r.timestamp > 61 - SESSION_TIMEOUT)) :=
  ⟨⟨by decide, by decide⟩,
   C1_session_expiry_sweep 61 [⟨"c1", 0, "admin", true, ""⟩]
     ⟨"c1", 0, "admin", true, ""⟩ (by decide) (by decide)⟩

/-! ## create_session (PostgresDataLayer.create_session, C10)

The website-administrator table and the legacy database-credential check
are embedded; the fallback "open a pool with the supplied credentials"
probe is an external effect modelled by a boolean outcome parameter. -/

/-- One row of the website_administrators table. -/
structure AdminRow where
  id : Nat
  username : String
  email : String
  full_name : String
  password_hash : String
  is_active : Bool
  last_login : Int
deriving Repr, DecidableEq

/-- Python str.lower / SQL LOWER, character by character. -/
def strLower (s : String) : String :=
  String.mk (s.data.map Char.toLower)

/-- PostgresDataLayer.authenticate_website_administrator: case-insensitive
username lookup among active rows, hash verification, last_login bump on
success; returns the matched username together with the updated table, or
none. -/
def authenticate_website_administrator (now : Int) (admins : List AdminRow)
    (username password : String) : Option String × List AdminRow :=
  match admins.find? (fun a => a.is_active && (strLower a.username = strLower username)) with
  | none => (none, admins)
  | some a =>
    if verify_password password a.password_hash then
      (some a.username,
       admins.map (fun b => if b.id = a.id then { b with last_login := now } else b))
    else
      (none, admins)

/-- PostgresDataLayer.create_session. Parameters beyond the session state:
the administrators table, the boolean outcome of the legacy
database-credential pool probe, the cached scheduling-services snapshot
serialized for the meta column, and the fresh uuid used when no cookie was
supplied. Returns the resulting session and administrator tables plus
either the session cookie or the raised authentication error. -/
def create_session (now : Int) (sessions : List SessionRow) (admins : List AdminRow)
    (dbAuthOk : Bool) (hcpServicesMeta : String) (newCookie : String)
    (cookie : Option String) (username password : String) :
    Except Unit String × List SessionRow × List AdminRow :=
  let record : SessionRow :=
    { cookie := cookie.getD newCookie, timestamp := now,
      username := username, admin := false, meta := "" }
  let auth :
      Except Unit (SessionRow × List AdminRow) :=
    if username ≠ "" ∧ password ≠ "" then
      match authenticate_website_administrator now admins username password with
      | (some authUsername, admins2) =>
        Except.ok ({ record with admin := true, username := authUsername }, admins2)
      | (none, admins2) =>
        if dbAuthOk then Except.ok ({ record with admin := true }, admins2)
        else Except.error ()
    else
      Except.ok (record, admins)
  match auth with
  | Except.error e => (Except.error e, sessions, admins)
  | Except.ok (rec2, admins2) =>
    match cookie with
    | some ck =>
      let sessions2 :=
        if (find_session sessions ck).isSome then
          update_session sessions ck
            (fun r => { r with timestamp := rec2.timestamp,
                               username := rec2.username, admin := rec2.admin })
        else sessions
      (Except.ok rec2.cookie, sessions2, admins2)
    | none =>
      (Except.ok rec2.cookie,
       sessions ++ [{ rec2 with meta := hcpServicesMeta }], admins2)

/-- C10: when a username and password are supplied and both authentication
paths fail, create_session raises the authentication error before any
session-table write: the session table (and the administrators table) is
returned exactly unchanged. -/
theorem C10_failed_login_leaves_sessions_unchanged (now : Int)
    (sessions : List SessionRow) (admins : List AdminRow)
    (hcpServicesMeta newCookie : String) (cookie : Option String)
    (username password : String)
    (hu : username ≠ "") (hp : password ≠ "")
    (hauth : (authenticate_website_administrator now admins username password).1 = none) :
    create_session now sessions admins false hcpServicesMeta newCookie
        cookie username password
      = (Except.error (), sessions, admins) := by
  have hsnd : (authenticate_website_administrator now admins username password).2
      = admins := by
    unfold authenticate_website_administrator
    cases hfind : admins.find? (fun a => a.is_active
        && (strLower a.username = strLower username)) with
    | none => rfl
    | some a =>
      by_cases hv : verify_password password a.password_hash
      · exfalso
        unfold authenticate_website_administrator at hauth
        rw [hfind] at hauth
        simp [hv] at hauth
      · simp [hv]
  have hA : authenticate_website_administrator now admins username password
      = (none, admins) := by
    cases hx : authenticate_website_administrator now admins username password with
    | mk o a2 =>
      rw [hx] at hauth hsnd
      simp only at hauth hsnd
      rw [hauth, hsnd]
  simp only [create_session, if_pos (And.intro hu hp), hA]
  rfl

theorem C10_failed_login_leaves_sessions_unchanged_witness :
    (("root" : String) ≠ "" ∧ ("wrong" : String) ≠ ""
      ∧ (authenticate_website_administrator 5 [] "root" "wrong").1 = none)
    ∧ create_session 5 [⟨"c1", 0, "", false, ""⟩] [] false "[]" "fresh-uuid"
        (some "c1") "root" "wrong"
      = (Except.error (), [⟨"c1", 0, "", false, ""⟩], []) :=
  ⟨⟨by decide, by decide, by rfl⟩,
   C10_failed_login_leaves_sessions_unchanged 5 [⟨"c1", 0, "", false, ""⟩] []
     "[]" "fresh-uuid" (some "c1") "root" "wrong"
     (by decide) (by decide) (by rfl)⟩

/-! ## Section meta parsing (PostgresDataLayer.update_section_meta, C6) -/

/-- Panel options dictionary: grid flag plus the optional
grid-template-columns style. -/
structure PanelOptions where
  grid : Bool
  grid_style : Option String
deriving Repr, DecidableEq

/-- Attributes of a sibling panel appended into a grid. In the source a
sibling is a full panel_attributes dictionary, but its siblings list is
always empty (the loop continues before a sibling could gain siblings) and
its options are always the default, so the constantly-empty siblings field
is omitted. -/
structure SiblingPanel where
  heading : String
  body : String
  options : PanelOptions
deriving Repr, DecidableEq

/-- One stored panel of a section's meta document. -/
structure Panel where
  heading : String
  body : String
  siblings : List SiblingPanel
  options : PanelOptions
deriving Repr, DecidableEq

/-- Model of re.findall with the bracket-tag pattern applied to a heading,
taking the first match's capture group: the text between the first opening
bracket and the last closing bracket after it (the capture is greedy), or
none when no such pair exists. -/
def bracketTag (s : String) : Option String :=
  match s.data.dropWhile (fun c => !(c = '[')) with
  | [] => none
  | _ :: afterOpen =>
    match afterOpen.reverse.dropWhile (fun c => !(c = ']')) with
    | [] => none
    | _ :: revBefore => some (String.mk revBefore.reverse)

/-- In-place update of one list element, as the source mutates
meta["panels"][grid_start]. -/
def listModify {α : Type} (f : α → α) : Nat → List α → List α
  | _, [] => []
  | 0, x :: xs => f x :: xs
  | n + 1, x :: xs => x :: listModify f n xs

/-- One iteration of the update_section_meta panel loop. State: the
accumulated top-level panels and the optional index of the panel that
started the current grid. The heading is stored verbatim — the source
never strips the bracket tag before storage. -/
def update_section_meta_step (st : List Panel × Option Nat) (hb : String × String) :
    List Panel × Option Nat :=
  let panels := st.1
  let grid_start := st.2
  let heading := hb.1
  let body := hb.2
  let pa : Panel :=
    { heading := heading, body := body, siblings := [],
      options := { grid := false, grid_style := none } }
  match bracketTag heading with
  | some tag =>
    -- Python: `if grid_start:` — both None and the index 0 are falsy, so a
    -- grid that started at index 0 is not reset by a new bracketed heading
    let grid_start1 : Option Nat :=
      match grid_start with
      | some g => if g = 0 then some 0 else none
      | none => none
    let parts := pySplit ' ' tag
    if parts.headD "" = "grid" then
      let pa2 : Panel :=
        { pa with options :=
            { grid := true,
              grid_style := some ("grid-template-columns: "
                ++ String.intercalate " " parts.tail) } }
      (panels ++ [pa2], some panels.length)
    else
      (panels ++ [pa], grid_start1)
  | none =>
    match grid_start with
    | some g =>
      (listModify (fun p =>
          { p with siblings := p.siblings
              ++ [{ heading := heading, body := body,
                    options := { grid := false, grid_style := none } }] })
        g panels, grid_start)
    | none => (panels ++ [pa], none)

/-- PostgresDataLayer.update_section_meta restricted to the pure
panel-construction part: the list of panels stored as the section's meta
document. -/
def update_section_meta_panels (panels : List (String × String)) : List Panel :=
  (panels.foldl update_section_meta_step ([], none)).1

/-- C6, counterexample: on the claim's input the first stored panel keeps
its heading verbatim, bracket tag included — the tag is NOT stripped before
storage (stripping happens only on the get_section_meta "all" read path). -/
theorem C6_grid_parsing_counterexample :
    (update_section_meta_panels
        [("[grid 1fr 1fr] A", "bodyA"), ("B", "bodyB"), ("[other] C", "bodyC")]).map
      Panel.heading = ["[grid 1fr 1fr] A", "[other] C"]
      ∧ ("[grid 1fr 1fr] A" : String) ≠ "A" := by
  constructor
  · rfl
  · decide

/-- C6, amended: on the claim's input the first stored panel is a grid with
grid_style "grid-template-columns: 1fr 1fr" and exactly one sibling (the B
panel), and C is stored as a new top-level panel with grid option false —
but headings are stored verbatim, bracket tags included (the tags are only
stripped later, on the get_section_meta "all" read path). -/
theorem C6_grid_parsing :
    update_section_meta_panels
        [("[grid 1fr 1fr] A", "bodyA"), ("B", "bodyB"), ("[other] C", "bodyC")]
      = [{ heading := "[grid 1fr 1fr] A", body := "bodyA",
           siblings := [{ heading := "B", body := "bodyB",
                          options := { grid := false, grid_style := none } }],
           options := { grid := true,
                        grid_style := some "grid-template-columns: 1fr 1fr" } },
         { heading := "[other] C", body := "bodyC", siblings := [],
           options := { grid := false, grid_style := none } }] := by
  rfl

/-! ## Services display order (create_service / delete_service, C7) -/

/-- One row of the services table. The id models the SERIAL column, and
is_active carries the schema default true on insert (schema.json is not
part of the sources; the default is modelled from the spec's soft-delete
description). -/
structure ServiceRow where
  id : Nat
  title : String
  description : String
  icon : String
  display_order : Int
  is_active : Bool
deriving Repr, DecidableEq

/-- SQL SELECT COALESCE(MAX(display_order), 0) over a list of orders. -/
def maxOrder (l : List Int) : Int :=
  match l with
  | [] => 0
  | x :: xs => xs.foldl max x

/-- PostgresDataLayer.create_service: when display_order is 0 the next free
order (active maximum plus one) is used; when an explicit order collides
with an active row, every active row at or after that order is shifted up
by one before the insert. Returns the new table and the new id. -/
def create_service (services : List ServiceRow) (newId : Nat)
    (title description icon : String) (display_order : Int) : List ServiceRow × Nat :=
  let finalOrder :=
    if display_order = 0 then
      maxOrder ((services.filter (fun r => r.is_active)).map ServiceRow.display_order) + 1
    else display_order
  let services2 :=
    if display_order = 0 then services
    else if 0 < (services.filter
        (fun r => r.display_order = display_order && r.is_active)).length then
      services.map (fun r =>
        if display_order ≤ r.display_order && r.is_active then
          { r with display_order := r.display_order + 1 }
        else r)
    else services
  (services2 ++ [⟨newId, title, description, icon, finalOrder, true⟩], newId)

/-- PostgresDataLayer.delete_service: soft delete — set is_active to false
for the matching id, touching nothing else (in particular no display_order
reflow happens). -/
def delete_service (services : List ServiceRow) (sid : Nat) : List ServiceRow :=
  services.map (fun r => if r.id = sid then { r with is_active := false } else r)

/-- Display orders of the active rows, in table order. -/
def activeOrders (services : List ServiceRow) : List Int :=
  (services.filter (fun r => r.is_active)).map ServiceRow.display_order

/-- Dense 1-based sequence check for a list of display orders. -/
def isDenseOneBased (l : List Int) : Bool :=
  l = (List.range l.length).map (fun n => (n : Int) + 1)

/-- C7, counterexample: create three services with no explicit order (their
orders are 1, 2, 3), then soft-delete the middle one — the active orders
become [1, 3], which is not a dense 1-based sequence: delete_service does
not reflow display_order as the claim states. -/
theorem C7_display_order_counterexample :
    activeOrders
        (delete_service
          ((create_service
            ((create_service
              ((create_service [] 1 "a" "" "" 0).1)
              2 "b" "" "" 0).1)
            3 "c" "" "" 0).1)
          2)
      = [1, 3]
      ∧ isDenseOneBased [1, 3] = false := by
  constructor <;> rfl

theorem activeOrders_cons (r : ServiceRow) (l : List ServiceRow) :
    activeOrders (r :: l)
      = if r.is_active then r.display_order :: activeOrders l else activeOrders l := by
  by_cases h : r.is_active
  · simp [activeOrders, List.filter_cons, h]
  · simp [activeOrders, List.filter_cons, h]

theorem activeOrders_append (a b : List ServiceRow) :
    activeOrders (a ++ b) = activeOrders a ++ activeOrders b := by
  simp [activeOrders, List.filter_append]

/-- The collision branch's UPDATE shifts exactly the active display orders
at or after the requested order. -/
theorem activeOrders_shift (d : Int) :
    ∀ services : List ServiceRow,
    activeOrders (services.map (fun r =>
        if d ≤ r.display_order && r.is_active then
          { r with display_order := r.display_order + 1 }
        else r))
      = (activeOrders services).map (fun o => if d ≤ o then o + 1 else o) := by
  intro services
  induction services with
  | nil => rfl
  | cons r rest ih =>
    simp only [List.map_cons]
    by_cases hact : r.is_active = true
    · by_cases hord : d ≤ r.display_order
      · have hcond : (decide (d ≤ r.display_order) && r.is_active) = true := by
          simp [hord, hact]
        rw [if_pos hcond]
        have h1 : ({ r with display_order := r.display_order + 1 } : ServiceRow).is_active
            = true := hact
        rw [activeOrders_cons, if_pos h1, ih, activeOrders_cons, if_pos hact,
            List.map_cons, if_pos hord]
      · have hcond : ¬((decide (d ≤ r.display_order) && r.is_active) = true) := by
          simp [hord]
        rw [if_neg hcond, activeOrders_cons, if_pos hact, ih, activeOrders_cons,
            if_pos hact, List.map_cons, if_neg hord]
    · have hfalse : r.is_active = false := by
        cases hb : r.is_active
        · rfl
        · exact absurd hb hact
      have hcond : ¬((decide (d ≤ r.display_order) && r.is_active) = true) := by
        simp [hfalse]
      rw [if_neg hcond, activeOrders_cons, if_neg hact, ih, activeOrders_cons,
          if_neg hact]

/-- Evaluation of create_service at a nonzero explicit display order: the
later active rows are shifted up by one exactly when the order is already
occupied by an active row, and the new row is inserted at the requested
order. -/
theorem create_service_explicit_eval (services : List ServiceRow) (newId : Nat)
    (title description icon : String) (d : Int) (hd : d ≠ 0) :
    (create_service services newId title description icon d).1
      = (if 0 < (services.filter
            (fun r => r.display_order = d && r.is_active)).length then
          services.map (fun r =>
            if d ≤ r.display_order && r.is_active then
              { r with display_order := r.display_order + 1 }
            else r)
         else services)
        ++ [⟨newId, title, description, icon, d, true⟩] := by
  unfold create_service
  rw [if_neg hd, if_neg hd]

/-- An insert at a nonzero explicit order keeps the active display orders
duplicate-free: on a collision every active order at or after the
requested one moves up by one (injectively, and past the inserted order),
and without a collision the requested order was free. -/
theorem create_service_explicit_keeps_nodup (services : List ServiceRow)
    (newId : Nat) (title description icon : String) (d : Int) (hd : d ≠ 0)
    (hnd : (activeOrders services).Nodup) :
    (activeOrders (create_service services newId title description icon d).1).Nodup := by
  rw [create_service_explicit_eval services newId title description icon d hd,
      activeOrders_append]
  have hsingle : activeOrders [⟨newId, title, description, icon, d, true⟩] = [d] := rfl
  rw [hsingle]
  by_cases hcol : 0 < (services.filter
      (fun r => r.display_order = d && r.is_active)).length
  · rw [if_pos hcol, activeOrders_shift]
    have hinj : Function.Injective (fun o : Int => if d ≤ o then o + 1 else o) := by
      intro a b hab
      by_cases ha : d ≤ a <;> by_cases hb : d ≤ b <;>
        simp only [ha, hb, if_true, if_false, if_pos, if_neg, not_false_iff] at hab <;>
        omega
    have hnotmem : d ∉ (activeOrders services).map (fun o => if d ≤ o then o + 1 else o) := by
      intro hmem
      obtain ⟨o, _, hfo⟩ := List.mem_map.mp hmem
      by_cases hdo : d ≤ o
      · rw [if_pos hdo] at hfo; omega
      · rw [if_neg hdo] at hfo; omega
    rw [List.nodup_append]
    exact ⟨hnd.map hinj, List.nodup_singleton d,
      by simpa [List.disjoint_singleton] using hnotmem⟩
  · rw [if_neg hcol]
    have hnotmem : d ∉ activeOrders services := by
      intro hmem
      obtain ⟨r, hr, hro⟩ := List.mem_map.mp hmem
      have hract : r.is_active = true := by
        have := List.mem_filter.mp hr
        simpa using this.2
      have hrmem : r ∈ services := (List.mem_filter.mp hr).1
      apply hcol
      rw [List.length_pos]
      intro hnil
      have : r ∈ services.filter (fun r => r.display_order = d && r.is_active) :=
        List.mem_filter.mpr ⟨hrmem, by simp [hro, hract]⟩
      rw [hnil] at this
      exact List.not_mem_nil r this
    rw [List.nodup_append]
    exact ⟨hnd, List.nodup_singleton d,
      by simpa [List.disjoint_singleton] using hnotmem⟩

theorem delete_service_active_rows (services : List ServiceRow) (sid : Nat) :
    (delete_service services sid).filter (fun r => r.is_active)
      = services.filter (fun r => r.is_active && !(r.id = sid)) := by
  induction services with
  | nil => rfl
  | cons r rest ih =>
    simp only [delete_service, List.map_cons, List.filter_cons] at *
    by_cases hid : r.id = sid
    · simp [hid, ih]
    · by_cases hact : r.is_active
      · simp [hid, hact, ih]
      · simp [hid, hact, ih]

/-- C7, amended: creating 3 services with no explicit order into an empty
table yields display_order values exactly [1, 2, 3]; an insert at a
nonzero explicit order shifts the later active rows up by one exactly when
the order is occupied, keeping the active display orders duplicate-free;
but delete_service only soft-deletes the row (is_active := false) without
renumbering, so the remaining active rows keep their previous
display_order values (and their relative order), and the active sequence
may be left with gaps. -/
theorem C7_display_order (t1 t2 t3 d1 d2 d3 i1 i2 i3 : String)
    (id1 id2 id3 : Nat) (services : List ServiceRow) (sid : Nat)
    (services4 : List ServiceRow) (newId4 : Nat) (t4 d4 i4 : String)
    (dord : Int) (hdord : dord ≠ 0)
    (hnd4 : (activeOrders services4).Nodup) :
    activeOrders
        ((create_service
          ((create_service
            ((create_service [] id1 t1 d1 i1 0).1)
            id2 t2 d2 i2 0).1)
          id3 t3 d3 i3 0).1)
      = [1, 2, 3]
      ∧ (0 < (services4.filter
            (fun r => r.display_order = dord && r.is_active)).length →
          (create_service services4 newId4 t4 d4 i4 dord).1
            = services4.map (fun r =>
                if dord ≤ r.display_order && r.is_active then
                  { r with display_order := r.display_order + 1 }
                else r)
              ++ [⟨newId4, t4, d4, i4, dord, true⟩])
      ∧ (activeOrders (create_service services4 newId4 t4 d4 i4 dord).1).Nodup
      ∧ delete_service services sid
          = services.map (fun r => if r.id = sid then { r with is_active := false } else r)
      ∧ activeOrders (delete_service services sid)
          = (services.filter (fun r => r.is_active && !(r.id = sid))).map
              ServiceRow.display_order := by
  refine ⟨?_, ?_, ?_, rfl, ?_⟩
  · simp [create_service, activeOrders, maxOrder]
  · intro hcol
    rw [create_service_explicit_eval services4 newId4 t4 d4 i4 dord hdord,
        if_pos hcol]
  · exact create_service_explicit_keeps_nodup services4 newId4 t4 d4 i4 dord
      hdord hnd4
  · unfold activeOrders
    rw [delete_service_active_rows]

/-- Example services table for the C7 witness: two active rows at orders
1 and 2. -/
def exampleServices : List ServiceRow :=
  [⟨1, "a", "", "", 1, true⟩, ⟨2, "b", "", "", 2, true⟩]

theorem C7_display_order_witness :
    ((1 : Int) ≠ 0 ∧ (activeOrders exampleServices).Nodup)
    ∧ (activeOrders
          ((create_service
            ((create_service
              ((create_service [] 1 "s1" "" "" 0).1)
              2 "s2" "" "" 0).1)
            3 "s3" "" "" 0).1)
        = [1, 2, 3]
      ∧ (0 < (exampleServices.filter
            (fun r => r.display_order = 1 && r.is_active)).length →
          (create_service exampleServices 3 "t4" "" "" 1).1
            = exampleServices.map (fun r =>
                if (1 : Int) ≤ r.display_order && r.is_active then
                  { r with display_order := r.display_order + 1 }
                else r)
              ++ [⟨3, "t4", "", "", 1, true⟩])
      ∧ (activeOrders (create_service exampleServices 3 "t4" "" "" 1).1).Nodup
      ∧ delete_service exampleServices 2
          = exampleServices.map (fun r =>
              if r.id = 2 then { r with is_active := false } else r)
      ∧ activeOrders (delete_service exampleServices 2)
          = (exampleServices.filter (fun r => r.is_active && !(r.id = 2))).map
              ServiceRow.display_order) :=
  ⟨⟨by decide, by decide⟩,
   C7_display_order "s1" "s2" "s3" "" "" "" "" "" "" 1 2 3 exampleServices 2
     exampleServices 3 "t4" "" "" 1 (by decide) (by decide)⟩

/-! ## Bot verification (recaptcha.verify_recaptcha) and POST /email
(routes.post_email), C4

The environment secret key, the submitted token and the parsed siteverify
response are explicit inputs; a network or JSON-parsing failure of the
remote call is the none response. Scores are rationals. -/

/-- Parsed JSON body of the siteverify response; absent keys fall back to
the dict.get defaults at their use sites. -/
structure RecaptchaResponse where
  success : Option Bool
  score : Option ℚ
  action : Option String

/-- recaptcha.verify_recaptcha: early-return chain of the source —
unconfigured secret key, missing/empty token, failed remote call, failed
success flag, action mismatch (only checked when an expected action is
supplied and non-empty), and low score all yield false; true only when
every check passes. -/
def verify_recaptcha (secretKey : Option String) (token : Option String)
    (remote : Option RecaptchaResponse) (expected_action : Option String)
    (min_score : ℚ) : Bool :=
  match secretKey with
  | none => false
  | some k =>
    if k = "" then false
    else
      match token with
      | none => false
      | some t =>
        if t = "" then false
        else
          match remote with
          | none => false
          | some result =>
            let success := result.success.getD false
            let score := result.score.getD 0
            let action := result.action.getD ""
            if !success then false
            else if (match expected_action with
                     | some ea => !(ea = "") && !(action = ea)
                     | none => false) then false
            else if score < min_score then false
            else true

/-- One row of the events table (the generated id column is omitted; the
source deletes pending events by the cookie anyway). -/
structure EventRow where
  cookie : String
  event : String
  type : String
deriving Repr, DecidableEq

/-- PostgresDataLayer.create_event: no-op without a cookie; otherwise clear
all pending events for the cookie and insert the new one. -/
def create_event (events : List EventRow) (cookie : Option String)
    (eventText eventType : String) : List EventRow :=
  match cookie with
  | none => events
  | some ck => (events.filter (fun e => !(e.cookie = ck))) ++ [⟨ck, eventText, eventType⟩]

/-- Outcome of the POST /email handler: resulting events table, whether
send_mail was invoked, and the redirect target. -/
structure PostEmailOutcome where
  events : List EventRow
  mailCalled : Bool
  redirect : String

/-- Flash message recorded when the bot verification fails. -/
def emailRecaptchaFailMsg : String :=
  "Email failed to send: Please complete the reCAPTCHA verification."

/-- routes.post_email: verify the token with expected action contact and
minimum score 0.5; on failure record an error flash and redirect home
without calling the mailer; on success call send_mail (whose returned
message/severity pair is an input here) and record its flash. -/
def post_email (events : List EventRow) (cookie : Option String)
    (secretKey token : Option String) (remote : Option RecaptchaResponse)
    (mailResult : String × String) : PostEmailOutcome :=
  if !(verify_recaptcha secretKey token remote (some "contact") (1/2 : ℚ)) then
    { events := create_event events cookie emailRecaptchaFailMsg "error",
      mailCalled := false, redirect := "/" }
  else
    { events := create_event events cookie mailResult.1 mailResult.2,
      mailCalled := true, redirect := "/" }

/-- Characterization of the only way verify_recaptcha returns true (for
the contact action). -/
theorem verify_recaptcha_true_iff (sk tok : Option String)
    (rem : Option RecaptchaResponse) (ms : ℚ) :
    verify_recaptcha sk tok rem (some "contact") ms = true
      ↔ (∃ k, sk = some k ∧ k ≠ "") ∧ (∃ t, tok = some t ∧ t ≠ "")
        ∧ (∃ r, rem = some r ∧ r.success.getD false = true
            ∧ r.action.getD "" = "contact" ∧ ¬(r.score.getD 0 < ms)) := by
  unfold verify_recaptcha
  cases sk with
  | none => simp
  | some k =>
    by_cases hk : k = ""
    · simp [hk]
    · simp only [if_neg hk]
      cases tok with
      | none => simp [hk]
      | some t =>
        by_cases ht : t = ""
        · simp [ht, hk]
        · simp only [if_neg ht]
          cases rem with
          | none => simp [hk, ht]
          | some r =>
            by_cases hsucc : r.success.getD false = true
            · by_cases hact : r.action.getD "" = "contact"
              · by_cases hscore : r.score.getD 0 < ms
                · simp [hsucc, hact, hscore, hk, ht]
                · simp [hsucc, hact, hscore, hk, ht]
                  exact le_of_not_lt hscore
              · simp [hsucc, hact, hk, ht]
            · simp [hsucc, hk, ht]

/-- C4: if the secret key is unconfigured, the token is missing or empty,
the remote verification call fails, the response reports failure, the
action is not the literal contact, or the score is below 0.5, then
verify_recaptcha returns false, and post_email never calls the mailer,
records an error flash for the cookie (when one is present), and redirects
to the home page. -/
theorem C4_recaptcha_gates_mail (events : List EventRow) (cookie : Option String)
    (sk tok : Option String) (rem : Option RecaptchaResponse)
    (mailResult : String × String)
    (hfail : sk = none ∨ sk = some "" ∨ tok = none ∨ tok = some "" ∨ rem = none
      ∨ ∃ r, rem = some r ∧ (r.success.getD false = false
          ∨ r.action.getD "" ≠ "contact" ∨ r.score.getD 0 < 1/2)) :
    verify_recaptcha sk tok rem (some "contact") (1/2 : ℚ) = false
      ∧ (post_email events cookie sk tok rem mailResult).mailCalled = false
      ∧ (post_email events cookie sk tok rem mailResult).redirect = "/"
      ∧ (post_email events cookie sk tok rem mailResult).events
          = create_event events cookie emailRecaptchaFailMsg "error"
      ∧ ∀ ck, cookie = some ck →
          (⟨ck, emailRecaptchaFailMsg, "error"⟩ : EventRow)
            ∈ (post_email events cookie sk tok rem mailResult).events := by
  have hv : verify_recaptcha sk tok rem (some "contact") (1/2 : ℚ) = false := by
    rw [Bool.eq_false_iff]
    intro htrue
    obtain ⟨⟨k, hsk, hk⟩, ⟨t, htok, ht⟩, ⟨r, hrem, hsucc, hact, hscore⟩⟩ :=
      (verify_recaptcha_true_iff sk tok rem (1/2 : ℚ)).mp htrue
    rcases hfail with h | h | h | h | h | ⟨r2, hr2, hcase⟩
    · rw [h] at hsk; exact Option.noConfusion hsk
    · rw [h] at hsk; exact hk (Option.some.injEq _ _ ▸ hsk ▸ rfl)
    · rw [h] at htok; exact Option.noConfusion htok
    · rw [h] at htok; exact ht (Option.some.injEq _ _ ▸ htok ▸ rfl)
    · rw [h] at hrem; exact Option.noConfusion hrem
    · rw [hr2] at hrem
      have hrr : r2 = r := Option.some.inj hrem
      subst hrr
      rcases hcase with h | h | h
      · rw [hsucc] at h; exact Bool.noConfusion h
      · exact h hact
      · exact hscore h
  have heval : post_email events cookie sk tok rem mailResult
      = { events := create_event events cookie emailRecaptchaFailMsg "error",
          mailCalled := false, redirect := "/" } := by
    unfold post_email
    rw [hv]
    rfl
  refine ⟨hv, ?_, ?_, ?_, ?_⟩
  · rw [heval]
  · rw [heval]
  · rw [heval]
  · intro ck hck
    rw [heval, hck]
    simp [create_event]

theorem C4_recaptcha_gates_mail_witness :
    ((none : Option RecaptchaResponse) = none
      ∨ (some "sk" : Option String) = none ∨ True)
    ∧ (verify_recaptcha (some "sk") (some "tok") none (some "contact") (1/2 : ℚ) = false
      ∧ (post_email [] (some "c1") (some "sk") (some "tok") none ("m", "info")).mailCalled
          = false
      ∧ (post_email [] (some "c1") (some "sk") (some "tok") none ("m", "info")).redirect
          = "/"
      ∧ (post_email [] (some "c1") (some "sk") (some "tok") none ("m", "info")).events
          = create_event [] (some "c1") emailRecaptchaFailMsg "error"
      ∧ ∀ ck, (some "c1" : Option String) = some ck →
          (⟨ck, emailRecaptchaFailMsg, "error"⟩ : EventRow)
            ∈ (post_email [] (some "c1") (some "sk") (some "tok") none ("m", "info")).events) :=
  ⟨Or.inl rfl,
   C4_recaptcha_gates_mail [] (some "c1") (some "sk") (some "tok") none ("m", "info")
     (Or.inr (Or.inr (Or.inr (Or.inr (Or.inl rfl)))))⟩

/-! ## Bootstrap scheduling-platform login retry (app.py main, C5) -/

/-- Trace of the bootstrap retry loop: the attempt numbers at which a
login was actually tried (a sleep of attempt_number * 2 seconds precedes
each), whether a try succeeded, and the final value of attempt_number when
the loop ended. -/
structure LoginRetryTrace where
  attempts : List Nat
  succeeded : Bool
  finalAttemptNumber : Nat
deriving Repr, DecidableEq

/-- Body of the while attempt_number < max_attempts loop of app.main,
written structurally on the remaining iteration budget
maxAttempts - attemptNumber (the loop guard attempt_number < max_attempts
is exactly remaining budget positive, since attempt_number rises by one
per failed iteration). logged_in starts false at bootstrap, so every
iteration reaches the login call; outcome gives each try's result, an
exception being false. Success breaks out; failure increments
attempt_number and continues. -/
def loginLoopAux (outcome : Nat → Bool) (attemptNumber : Nat) : Nat → LoginRetryTrace
  | 0 => { attempts := [], succeeded := false, finalAttemptNumber := attemptNumber }
  | fuel + 1 =>
    if outcome attemptNumber then
      { attempts := [attemptNumber], succeeded := true,
        finalAttemptNumber := attemptNumber }
    else
      let rest := loginLoopAux outcome (attemptNumber + 1) fuel
      { rest with attempts := attemptNumber :: rest.attempts }

/-- The retry loop from its entry state. -/
def loginRetryLoop (outcome : Nat → Bool) (attemptNumber maxAttempts : Nat) :
    LoginRetryTrace :=
  loginLoopAux outcome attemptNumber (maxAttempts - attemptNumber)

/-- Observable outcome of app.main's startup sequence around the retry
loop: max_attempts = 3 and attempt_number starts at 1; the while-else
critical log runs iff the loop exhausted without a break, and the server
is started iff attempt_number <= max_attempts afterwards. -/
structure MainStartup where
  attempts : List Nat
  sleepsSeconds : List Nat
  loginSucceeded : Bool
  serverStarts : Bool
  criticalFailureLogged : Bool
deriving Repr, DecidableEq

/-- app.main: the login retry sequence with max_attempts = 3 and
attempt_number = 1. -/
def main_login_sequence (outcome : Nat → Bool) : MainStartup :=
  let tr := loginRetryLoop outcome 1 3
  { attempts := tr.attempts
    sleepsSeconds := tr.attempts.map (fun n => n * 2)
    loginSucceeded := tr.succeeded
    serverStarts := tr.finalAttemptNumber ≤ 3
    criticalFailureLogged := !tr.succeeded }

/-- C5: when every login attempt fails, the bootstrap loop tries the login
only TWICE (attempt numbers 1 and 2, sleeping 2 then 4 seconds), because
the guard is attempt_number < max_attempts with attempt_number starting at
1 and max_attempts = 3 — not the three attempts the claim states; the
server still starts and the critical-integration failure is logged, and no
outcome function can ever produce more than two attempts. -/
theorem C5_login_retry_only_two_attempts :
    (main_login_sequence (fun _ => false)).attempts = [1, 2]
      ∧ (main_login_sequence (fun _ => false)).sleepsSeconds = [2, 4]
      ∧ (main_login_sequence (fun _ => false)).serverStarts = true
      ∧ (main_login_sequence (fun _ => false)).criticalFailureLogged = true
      ∧ ∀ outcome : Nat → Bool, (main_login_sequence outcome).attempts.length ≤ 2 := by
  refine ⟨rfl, rfl, rfl, rfl, ?_⟩
  intro outcome
  by_cases h1 : outcome 1
  · simp [main_login_sequence, loginRetryLoop, loginLoopAux, h1]
  · by_cases h2 : outcome 2
    · simp [main_login_sequence, loginRetryLoop, loginLoopAux, h1, h2]
    · simp [main_login_sequence, loginRetryLoop, loginLoopAux, h1, h2]

/-! ## Generic API cache (set_cached_api_data / is_api_cache_expired, C9)

Time is an explicit clock value; cache durations are in the same unit
(hours in the source). The inserted row's is_valid = true and
cached_at = now come from the api_cache column defaults. Modelled from the
spec: schema.json, which declares those defaults, is not among the
sources; spec section 3 describes the row and the logical-replacement
write. -/

/-- One row of the api_cache table. -/
structure CacheRow where
  id : Nat
  cache_type : String
  data : String
  cached_at : Int
  expires_at : Int
  is_valid : Bool
deriving Repr, DecidableEq

/-- PostgresDataLayer.set_cached_api_data: invalidate (not delete) every
valid row of the type, then insert the new row expiring at now plus the
duration. -/
def set_cached_api_data (now : Int) (rows : List CacheRow) (newId : Nat)
    (ctype data : String) (hours : Int) : List CacheRow :=
  (rows.map (fun r =>
      if r.cache_type = ctype && r.is_valid then { r with is_valid := false } else r))
    ++ [⟨newId, ctype, data, now, now + hours, true⟩]

/-- Row filter used by both cache reads: same type, valid, and
expires_at > CURRENT_TIMESTAMP. -/
def cacheLive (now : Int) (ctype : String) (r : CacheRow) : Bool :=
  r.cache_type = ctype && r.is_valid && now < r.expires_at

/-- PostgresDataLayer.is_api_cache_expired: COUNT of valid unexpired rows
of the type equals zero. -/
def is_api_cache_expired (now : Int) (rows : List CacheRow) (ctype : String) : Bool :=
  (rows.filter (cacheLive now ctype)).length = 0

/-- Most recent row by cached_at (ORDER BY cached_at DESC LIMIT 1). -/
def mostRecent : List CacheRow → Option CacheRow
  | [] => none
  | r :: rest =>
    match mostRecent rest with
    | none => some r
    | some b => if r.cached_at < b.cached_at then some b else some r

/-- PostgresDataLayer.get_cached_api_data: payload of the most recent
valid unexpired row of the type, or none. -/
def get_cached_api_data (now : Int) (rows : List CacheRow) (ctype : String) :
    Option String :=
  (mostRecent (rows.filter (cacheLive now ctype))).map CacheRow.data

/-- C9: is_api_cache_expired is true exactly when no valid unexpired row
of the type exists (in particular on the empty table right after
initialization); it is false immediately after set_cached_api_data with a
positive duration; it is true again at any instant at or past the new
row's expires_at; and the write invalidates all prior valid rows of the
type without deleting anything (the table only grows by the new row). -/
theorem C9_cache_ttl_semantics (now now2 : Int) (rows : List CacheRow)
    (newId : Nat) (ctype data : String) (hours : Int)
    (hpos : 0 < hours) (hlater : now + hours ≤ now2) :
    (is_api_cache_expired now rows ctype = true
        ↔ ∀ r ∈ rows, ¬(r.cache_type = ctype ∧ r.is_valid = true ∧ now < r.expires_at))
      ∧ is_api_cache_expired now [] ctype = true
      ∧ is_api_cache_expired now
          (set_cached_api_data now rows newId ctype data hours) ctype = false
      ∧ is_api_cache_expired now2
          (set_cached_api_data now rows newId ctype data hours) ctype = true
      ∧ (set_cached_api_data now rows newId ctype data hours).length = rows.length + 1
      ∧ set_cached_api_data now rows newId ctype data hours
          = rows.map (fun r =>
              if r.cache_type = ctype && r.is_valid then { r with is_valid := false }
              else r)
            ++ [⟨newId, ctype, data, now, now + hours, true⟩] := by
  refine ⟨?_, by rfl, ?_, ?_, by simp [set_cached_api_data], rfl⟩
  · simp only [is_api_cache_expired, decide_eq_true_eq, List.length_eq_zero,
      List.filter_eq_nil_iff, cacheLive]
    constructor
    · intro h r hr hcond
      exact h r hr (by simp [hcond.1, hcond.2.1, hcond.2.2])
    · intro h r hr hcond
      apply h r hr
      simp only [Bool.and_eq_true, decide_eq_true_eq] at hcond
      exact ⟨hcond.1.1, hcond.1.2, hcond.2⟩
  · simp only [is_api_cache_expired, set_cached_api_data, List.filter_append]
    have hlive : cacheLive now ctype ⟨newId, ctype, data, now, now + hours, true⟩ = true := by
      simp [cacheLive]
      omega
    simp [hlive]
  · have hdead : cacheLive now2 ctype ⟨newId, ctype, data, now, now + hours, true⟩
        = false := by
      simp [cacheLive]
      omega
    have hmapped : (rows.map (fun r =>
        if r.cache_type = ctype && r.is_valid then { r with is_valid := false }
        else r)).filter (cacheLive now2 ctype) = [] := by
      rw [List.filter_eq_nil_iff]
      intro x hx
      obtain ⟨r, _, hxr⟩ := List.mem_map.mp hx
      rw [← hxr]
      split
      · simp [cacheLive]
      · next hcond =>
        have hfalse : (decide (r.cache_type = ctype) && r.is_valid) = false := by
          rw [Bool.not_eq_true] at hcond
          exact hcond
        simp [cacheLive, hfalse]
    unfold is_api_cache_expired set_cached_api_data
    rw [List.filter_append, hmapped]
    have hnew : List.filter (cacheLive now2 ctype)
        [⟨newId, ctype, data, now, now + hours, true⟩] = [] := by
      simp [List.filter, hdead]
    rw [hnew]
    rfl

/-- Example cache row used by the C9 witness. -/
def exampleCacheRow : CacheRow := ⟨0, "google_rating", "old", 0, 9, true⟩

theorem C9_cache_ttl_semantics_witness :
    ((0 : Int) < 1 ∧ (5 : Int) + 1 ≤ 6)
      ∧ ((is_api_cache_expired 5 [exampleCacheRow] "google_rating" = true
          ↔ ∀ r ∈ [exampleCacheRow],
              ¬(r.cache_type = "google_rating" ∧ r.is_valid = true
                ∧ (5 : Int) < r.expires_at))
        ∧ is_api_cache_expired 5 [] "google_rating" = true
        ∧ is_api_cache_expired 5
            (set_cached_api_data 5 [exampleCacheRow] 1
              "google_rating" "new" 1) "google_rating" = false
        ∧ is_api_cache_expired 6
            (set_cached_api_data 5 [exampleCacheRow] 1
              "google_rating" "new" 1) "google_rating" = true
        ∧ (set_cached_api_data 5 [exampleCacheRow] 1
            "google_rating" "new" 1).length = [exampleCacheRow].length + 1
        ∧ set_cached_api_data 5 [exampleCacheRow] 1 "google_rating" "new" 1
            = [exampleCacheRow].map (fun r =>
                if r.cache_type = "google_rating" && r.is_valid then
                  { r with is_valid := false }
                else r)
              ++ [⟨1, "google_rating", "new", 5, 5 + 1, true⟩]) :=
  ⟨⟨by decide, by decide⟩,
   C9_cache_ttl_semantics 5 6 [exampleCacheRow] 1
     "google_rating" "new" 1 (by decide) (by decide)⟩

/-! ## Official-API reputation strategy (GoogleBusinessAPI.fetch_all_reviews, C8)

The paginated network fetch is outside the pure transformation; the claim
quantifies over the accumulated raw review list, which is the embedding's
input. Creation instants are integers; a missing, empty or unparseable
createTime leaves create_datetime at none (Python None), which sorts below
every parsed instant exactly as datetime.min does in the source's sort key.
The display-formatted date string derived from createTime is carried as
given data (strftime is a library formatter). Ratings average in ℚ, the
exact-arithmetic reading of the source's float division. -/

/-- One raw review dictionary from the reviews endpoint. -/
structure RawReview where
  starRating : Option String
  comment : Option String
  reviewerDisplayName : Option String
  createInstant : Option Int
  dateStr : String
deriving Repr, DecidableEq

/-- The ONE..FIVE star-rating enum mapping with default 0
(rating_map.get(rating_str, 0)). -/
def rating_map (s : String) : Nat :=
  if s = "ONE" then 1 else if s = "TWO" then 2 else if s = "THREE" then 3
  else if s = "FOUR" then 4 else if s = "FIVE" then 5 else 0

/-- review.get('starRating', 'NOT_SPECIFIED') fed through rating_map. -/
def reviewRating (r : RawReview) : Nat :=
  rating_map (r.starRating.getD "NOT_SPECIFIED")

/-- A transformed review record, still carrying the internal sort
instant. -/
structure TransformedReview where
  author : String
  rating : Nat
  text : String
  date : String
  relative_time : String
  source : String
  create_datetime : Option Int
deriving Repr, DecidableEq

/-- A display review record: the transformed record after
review.pop('create_datetime'). -/
structure DisplayReview where
  author : String
  rating : Nat
  text : String
  date : String
  relative_time : String
  source : String
deriving Repr, DecidableEq

/-- The per-review transformation of fetch_all_reviews. -/
def transformReview (r : RawReview) : TransformedReview :=
  { author := r.reviewerDisplayName.getD "Anonymous"
    rating := reviewRating r
    text := (r.comment.getD "").trim
    date := r.dateStr
    relative_time := r.dateStr
    source := "google_business_api"
    create_datetime := r.createInstant }

/-- review.pop('create_datetime', None) before returning the display
list. -/
def dropInstant (t : TransformedReview) : DisplayReview :=
  { author := t.author, rating := t.rating, text := t.text,
    date := t.date, relative_time := t.relative_time, source := t.source }

/-- Ordering on sort keys: x.get('create_datetime') or datetime.min —
none is the minimum. -/
def instLE (a b : Option Int) : Bool :=
  match a, b with
  | none, _ => true
  | some _, none => false
  | some x, some y => decide (x ≤ y)

/-- Descending comparison used by the reverse=True stable sort. -/
def reviewDescLE (a b : TransformedReview) : Bool :=
  instLE b.create_datetime a.create_datetime

/-- Display eligibility: rating == 5 and review_text and
len(review_text) > 20 (on the trimmed text). -/
def eligible (t : TransformedReview) : Bool :=
  t.rating = 5 && !(t.text = "") && decide (20 < t.text.length)

/-- The rating totals accumulated by the transformation loop:
(total_rating, rating_count), counting only ratings above 0. -/
def ratingTotals (reviews : List RawReview) : Nat × Nat :=
  reviews.foldl
    (fun acc r =>
      if 0 < reviewRating r then (acc.1 + reviewRating r, acc.2 + 1) else acc)
    (0, 0)

/-- Result payload of fetch_all_reviews (the error fallback payload with
source api_error is produced by the surrounding except clause and carries
no review data). -/
structure ReviewsPayload where
  reviews : List DisplayReview
  total_found : Nat
  filtered_count : Nat
  displayed_count : Nat
  rating : Option ℚ
  review_count : Nat
  source : String

/-- GoogleBusinessAPI.fetch_all_reviews, transformation part: transform
every raw review, filter the 5-star substantial-text ones for display,
stable-sort them by creation instant descending, keep the top 10 with the
sort instant stripped, and average all parseable ratings. -/
def fetch_all_reviews_payload (reviews : List RawReview) : ReviewsPayload :=
  let all_transformed := reviews.map transformReview
  let filtered := all_transformed.filter eligible
  let tc := ratingTotals reviews
  let sorted := filtered.mergeSort reviewDescLE
  let display := (sorted.take 10).map dropInstant
  { reviews := display
    total_found := reviews.length
    filtered_count := filtered.length
    displayed_count := display.length
    rating := if 0 < tc.2 then some ((tc.1 : ℚ) / (tc.2 : ℚ)) else none
    review_count := reviews.length
    source := "google_business_api" }

theorem instLE_trans (a b c : Option Int) :
    instLE a b = true → instLE b c = true → instLE a c = true := by
  cases a <;> cases b <;> cases c <;> simp [instLE]
  omega

theorem instLE_total (a b : Option Int) : instLE a b || instLE b a := by
  cases a <;> cases b <;> simp [instLE]
  omega

/-- The list of parseable numeric ratings across the full review set. -/
def parseableRatings (reviews : List RawReview) : List Nat :=
  (reviews.map reviewRating).filter (fun n => 0 < n)

theorem ratingTotals_eq_aux (reviews : List RawReview) :
    ∀ a b : Nat, reviews.foldl
        (fun acc r =>
          if 0 < reviewRating r then (acc.1 + reviewRating r, acc.2 + 1) else acc)
        (a, b)
      = (a + (parseableRatings reviews).sum, b + (parseableRatings reviews).length) := by
  induction reviews with
  | nil => intro a b; simp [parseableRatings]
  | cons r rest ih =>
    intro a b
    by_cases hr : 0 < reviewRating r
    · simp only [List.foldl_cons, if_pos hr, ih]
      simp only [parseableRatings, List.map_cons, List.filter_cons]
      rw [if_pos (by simpa using hr)]
      simp only [List.sum_cons, List.length_cons, Prod.mk.injEq]
      refine ⟨by omega, by omega⟩
    · simp only [List.foldl_cons, if_neg hr, ih]
      simp only [parseableRatings, List.map_cons, List.filter_cons]
      rw [if_neg (by simpa using hr)]

theorem ratingTotals_eq (reviews : List RawReview) :
    ratingTotals reviews
      = ((parseableRatings reviews).sum, (parseableRatings reviews).length) := by
  unfold ratingTotals
  rw [ratingTotals_eq_aux reviews 0 0]
  simp

/-- Concrete raw reviews with star ratings FIVE, FIVE, FOUR and absent,
used in the claim's average example. -/
def exampleRawReviews : List RawReview :=
  [⟨some "FIVE", some "this plumber was absolutely fantastic", some "A", some 40, "d1"⟩,
   ⟨some "FIVE", some "quick, friendly and very professional work", some "B", some 30, "d2"⟩,
   ⟨some "FOUR", some "good service overall, would recommend them", some "C", some 20, "d3"⟩,
   ⟨none, some "no rating given on this one at all, sadly!", none, some 10, "d4"⟩]

/-- C8: every displayed review has rating exactly 5 and trimmed text
longer than 20 characters; the display list is the first 10 of the
eligible reviews stable-sorted by creation instant descending, with the
internal sort-instant field removed (hence at most 10 entries); the
aggregate rating is the arithmetic mean of all parseable ratings across
the full set, or absent when none parses; on ratings {5,5,4,absent} the
mean is 14/3. -/
theorem C8_reviews_pipeline (reviews : List RawReview) :
    (∀ d ∈ (fetch_all_reviews_payload reviews).reviews,
        d.rating = 5 ∧ 20 < d.text.length)
      ∧ (fetch_all_reviews_payload reviews).reviews
          = ((((reviews.map transformReview).filter eligible).mergeSort
              reviewDescLE).take 10).map dropInstant
      ∧ List.Pairwise (fun a b => reviewDescLE a b = true)
          (((reviews.map transformReview).filter eligible).mergeSort reviewDescLE)
      ∧ (fetch_all_reviews_payload reviews).reviews.length ≤ 10
      ∧ (fetch_all_reviews_payload reviews).rating
          = (if 0 < (parseableRatings reviews).length then
              some (((parseableRatings reviews).sum : ℚ)
                / ((parseableRatings reviews).length : ℚ))
             else none)
      ∧ (fetch_all_reviews_payload exampleRawReviews).rating = some (14 / 3 : ℚ) := by
  refine ⟨?_, rfl, ?_, ?_, ?_, ?_⟩
  · intro d hd
    simp only [fetch_all_reviews_payload, List.mem_map] at hd
    obtain ⟨t, ht, hdt⟩ := hd
    have ht2 : t ∈ ((reviews.map transformReview).filter eligible).mergeSort
        reviewDescLE := List.mem_of_mem_take ht
    have ht3 : t ∈ (reviews.map transformReview).filter eligible :=
      (List.mergeSort_perm _ _).mem_iff.mp ht2
    have helig : eligible t = true := List.of_mem_filter ht3
    simp only [eligible, Bool.and_eq_true, decide_eq_true_eq] at helig
    rw [← hdt]
    exact ⟨helig.1.1, helig.2⟩
  · exact List.sorted_mergeSort
      (fun a b c hab hbc =>
        instLE_trans c.create_datetime b.create_datetime a.create_datetime hbc hab)
      (fun a b => instLE_total b.create_datetime a.create_datetime) _
  · simp only [fetch_all_reviews_payload, List.length_map]
    exact le_trans (List.length_take_le 10 _) (le_refl 10)
  · simp only [fetch_all_reviews_payload, ratingTotals_eq]
  · rfl

/-! ## Database backup and restore (create_database_backup /
restore_database_backup, C2)

A database is a list of named tables, each a list of rows; a row is an
association list from column names to cell values (serialized strings —
the JSON round-trip of cell values through the json serializer is the
identity at this granularity). Per-table backup failures are modelled by a
predicate naming the failing tables. The SELECT orderings (tables by name,
rows by first column) only permute the dump and are left as the given
order. -/

/-- A row: ordered column-name / cell-value pairs. -/
abbrev DbRow : Type := List (String × String)

/-- A database: named tables with their rows. -/
abbrev Database : Type := List (String × List DbRow)

/-- One per-table entry of the backup document's tables map: either the
dumped structure/data/row_count or the error marker recorded when the
table's dump raised. -/
inductive TableDumpEntry where
  | ok (data : List DbRow) (row_count : Nat)
  | err (msg : String)
deriving Repr, DecidableEq

/-- The per-table loop of create_database_backup: dump each table, turning
a table-level failure into an error entry instead of aborting. -/
def buildBackupTables (db : Database) (fails : String → Bool) :
    List (String × TableDumpEntry) :=
  db.map (fun t => (t.1, if fails t.1 then TableDumpEntry.err "table error"
                         else TableDumpEntry.ok t.2 t.2.length))

/-- Python error raised by an attribute lookup. -/
inductive PyErr where
  | attributeError (msg : String)
deriving Repr, DecidableEq

/-- Evaluation of the expression datetime.datetime.now() inside
data_layer.py: the module imports the CLASS datetime (from datetime import
datetime, line 14) and never imports the datetime MODULE, so the attribute
lookup datetime.datetime on the class raises AttributeError. -/
def dataLayer_datetime_datetime_now : Except PyErr String :=
  Except.error (PyErr.attributeError
    "type object datetime.datetime has no attribute datetime")

/-- The success payload create_database_backup would return. -/
structure BackupSuccess where
  filename : String
  filepath : String
  timestamp : String
  tables : List (String × TableDumpEntry)
  tables_backed_up : Nat
deriving Repr, DecidableEq

/-- PostgresDataLayer.create_database_backup. The timestamp expression on
line 443 executes BEFORE the try block (line 450), so its AttributeError
propagates to the caller; the rest of the embedding is the dead success
path that builds and writes the backup document. -/
def create_database_backup (db : Database) (fails : String → Bool) :
    Except PyErr BackupSuccess :=
  match dataLayer_datetime_datetime_now with
  | Except.error e => Except.error e
  | Except.ok ts =>
    let backup_filename := "mayday_backup_" ++ ts ++ ".json"
    let tables := buildBackupTables db fails
    Except.ok
      { filename := backup_filename
        filepath := "backups/" ++ backup_filename
        timestamp := ts
        tables := tables
        tables_backed_up :=
          (tables.filter (fun e => match e.2 with
            | TableDumpEntry.ok _ _ => true
            | TableDumpEntry.err _ => false)).length }

/-- row.get(col): first matching column's value, empty marker when the
column is absent (never hit on uniform dumps). -/
def lookupD (r : DbRow) (c : String) : String :=
  ((r.find? (fun p => p.1 = c)).map Prod.snd).getD ""

/-- The restore insert for one table: column names are taken from the
first backed-up row, and every row is re-assembled over exactly those
columns. -/
def restoreRows (data : List DbRow) : List DbRow :=
  match data with
  | [] => []
  | r0 :: _ =>
    let cols := r0.map Prod.fst
    data.map (fun row => cols.map (fun c => (c, lookupD row c)))

/-- The per-table restore loop of restore_database_backup: for every table
of the backup document, skip it when it carries an error entry, otherwise
delete the table's current rows and insert the backed-up rows. -/
def restore_tables (db : Database) (tables : List (String × TableDumpEntry)) :
    Database :=
  tables.foldl
    (fun cur e =>
      match e.2 with
      | TableDumpEntry.err _ => cur
      | TableDumpEntry.ok data _ =>
        cur.map (fun t => if t.1 = e.1 then (t.1, restoreRows data) else t))
    db

/-- The last applicable data entry for a table name, later entries
overriding earlier ones (the fold applies them in order). -/
def lastOkEntry : List (String × TableDumpEntry) → String → Option (List DbRow)
  | [], _ => none
  | e :: rest, n =>
    match lastOkEntry rest n with
    | some d => some d
    | none =>
      match e.2 with
      | TableDumpEntry.err _ => none
      | TableDumpEntry.ok data _ => if e.1 = n then some data else none

/-- A table emptied of its rows (the same-schema empty target database). -/
def emptied (db : Database) : Database := db.map (fun t => (t.1, []))

/-- Total row count of a database. -/
def totalRows (db : Database) : Nat := (db.map (fun t => t.2.length)).sum

theorem restore_tables_eval (tables : List (String × TableDumpEntry)) :
    ∀ db : Database, restore_tables db tables
      = db.map (fun t =>
          match lastOkEntry tables t.1 with
          | none => t
          | some d => (t.1, restoreRows d)) := by
  induction tables with
  | nil =>
    intro db
    simp only [restore_tables, List.foldl_nil, lastOkEntry]
    exact (List.map_id' db).symm
  | cons e rest ih =>
    intro db
    simp only [restore_tables, List.foldl_cons] at *
    cases he : e.2 with
    | err m =>
      rw [ih db]
      apply List.map_congr_left
      intro t _
      cases hrest : lastOkEntry rest t.1 with
      | none => simp [lastOkEntry, he, hrest]
      | some d => simp [lastOkEntry, he, hrest]
    | ok data n =>
      rw [ih (db.map (fun t => if t.1 = e.1 then (t.1, restoreRows data) else t))]
      rw [List.map_map]
      apply List.map_congr_left
      intro t _
      simp only [Function.comp]
      by_cases hname : t.1 = e.1
      · simp only [if_pos hname]
        cases hrest : lastOkEntry rest t.1 with
        | none =>
          simp [lastOkEntry, hrest, he, if_pos hname.symm]
        | some d =>
          simp [lastOkEntry, hrest]
      · simp only [if_neg hname]
        cases hrest : lastOkEntry rest t.1 with
        | none =>
          have hne2 : ¬(e.1 = t.1) := fun h => hname h.symm
          simp [lastOkEntry, hrest, he, hne2]
        | some d =>
          simp [lastOkEntry, hrest]

theorem lastOkEntry_none_of_notin :
    ∀ (tables : List (String × TableDumpEntry)) (n : String),
    n ∉ tables.map Prod.fst → lastOkEntry tables n = none := by
  intro tables
  induction tables with
  | nil => intro n _; rfl
  | cons e rest ih =>
    intro n hnot
    simp only [List.map_cons, List.mem_cons, not_or] at hnot
    simp only [lastOkEntry, ih n hnot.2]
    cases e.2 with
    | err m => rfl
    | ok data c =>
      show (if e.1 = n then some data else none) = none
      rw [if_neg (fun h : e.1 = n => hnot.1 h.symm)]

theorem buildBackupTables_names (db : Database) (fails : String → Bool) :
    (buildBackupTables db fails).map Prod.fst = db.map Prod.fst := by
  simp [buildBackupTables, List.map_map, Function.comp]

theorem lastOkEntry_of_nodup (fails : String → Bool) :
    ∀ (db : Database), (db.map Prod.fst).Nodup →
    (∀ t ∈ db, fails t.1 = false) →
    ∀ n rows0, (n, rows0) ∈ db →
    lastOkEntry (buildBackupTables db fails) n = some rows0 := by
  intro db
  induction db with
  | nil =>
    intro _ _ n rows0 hmem
    exact absurd hmem (List.not_mem_nil _)
  | cons t rest ih =>
    intro hnd hfails n rows0 hmem
    have hndrest : (rest.map Prod.fst).Nodup := (List.nodup_cons.mp hnd).2
    have hnotin : t.1 ∉ rest.map Prod.fst := (List.nodup_cons.mp hnd).1
    have hfrest : ∀ u ∈ rest, fails u.1 = false :=
      fun u hu => hfails u (List.mem_cons_of_mem t hu)
    have hbuild : buildBackupTables (t :: rest) fails
        = (t.1, TableDumpEntry.ok t.2 t.2.length) :: buildBackupTables rest fails := by
      have hft : fails t.1 = false := hfails t (List.mem_cons_self t rest)
      simp [buildBackupTables, hft]
    rcases List.mem_cons.mp hmem with heq | hmemrest
    · have hn : t.1 = n := by rw [← heq]
      have hrows : t.2 = rows0 := by rw [← heq]
      have hrest_none : lastOkEntry (buildBackupTables rest fails) n = none := by
        apply lastOkEntry_none_of_notin
        rw [buildBackupTables_names]
        rw [← hn]
        exact hnotin
      rw [hbuild]
      simp only [lastOkEntry, hrest_none, hn, hrows, if_pos rfl]
      simp
    · rw [hbuild]
      simp only [lastOkEntry, ih hndrest hfrest n rows0 hmemrest]

/-- Reassembling a duplicate-free row over its own column list is the
identity. -/
theorem rebuild_row : ∀ (row : DbRow), (row.map Prod.fst).Nodup →
    (row.map Prod.fst).map (fun c => (c, lookupD row c)) = row := by
  intro row
  induction row with
  | nil => intro _; rfl
  | cons p rrest ih =>
    intro hnd
    have hnotin : p.1 ∉ rrest.map Prod.fst := (List.nodup_cons.mp (by simpa using hnd)).1
    have hndrest : (rrest.map Prod.fst).Nodup := (List.nodup_cons.mp (by simpa using hnd)).2
    simp only [List.map_cons]
    have hhead : lookupD (p :: rrest) p.1 = p.2 := by
      simp [lookupD, List.find?]
    have htail : ∀ c ∈ rrest.map Prod.fst,
        lookupD (p :: rrest) c = lookupD rrest c := by
      intro c hc
      have hne : ¬(p.1 = c) := fun h => hnotin (h ▸ hc)
      simp [lookupD, List.find?, hne]
    rw [hhead]
    have : (rrest.map Prod.fst).map (fun c => (c, lookupD (p :: rrest) c))
        = (rrest.map Prod.fst).map (fun c => (c, lookupD rrest c)) := by
      apply List.map_congr_left
      intro c hc
      rw [htail c hc]
    rw [this, ih hndrest]

/-- When every row of a dump carries the same duplicate-free column list
as the first row, the restore insert reproduces the rows exactly. -/
theorem restoreRows_id (rows : List DbRow)
    (h : ∀ r ∈ rows, (r.map Prod.fst).Nodup
        ∧ r.map Prod.fst = (rows.headD []).map Prod.fst) :
    restoreRows rows = rows := by
  cases rows with
  | nil => rfl
  | cons r0 rest =>
    simp only [restoreRows]
    have hstep : ∀ row ∈ r0 :: rest,
        (r0.map Prod.fst).map (fun c => (c, lookupD row c)) = row := by
      intro row hrow
      have hr := h row hrow
      have hcols : r0.map Prod.fst = row.map Prod.fst := by
        rw [hr.2]; rfl
      rw [hcols]
      exact rebuild_row row hr.1
    calc (r0 :: rest).map (fun row => (r0.map Prod.fst).map (fun c => (c, lookupD row c)))
        = (r0 :: rest).map (fun row => row) := List.map_congr_left hstep
      _ = r0 :: rest := List.map_id' _

/-- Round trip of the per-table logic: restoring the backup document built
from a database (with duplicate-free table names, no failing tables, and
per-table uniform duplicate-free columns) into the emptied same-schema
database reproduces the database exactly. -/
theorem restore_of_backup (db : Database) (fails : String → Bool)
    (hnd : (db.map Prod.fst).Nodup)
    (hfails : ∀ t ∈ db, fails t.1 = false)
    (hcols : ∀ t ∈ db, ∀ r ∈ t.2, (r.map Prod.fst).Nodup
        ∧ r.map Prod.fst = (t.2.headD []).map Prod.fst) :
    restore_tables (emptied db) (buildBackupTables db fails) = db := by
  rw [restore_tables_eval]
  unfold emptied
  rw [List.map_map]
  have hpt : ∀ t ∈ db,
      ((fun t =>
          match lastOkEntry (buildBackupTables db fails) t.1 with
          | none => t
          | some d => (t.1, restoreRows d)) ∘ (fun t => (t.1, ([] : List DbRow)))) t
        = t := by
    intro t ht
    have hmem : (t.1, t.2) ∈ db := by
      rw [Prod.mk.eta]; exact ht
    have hlast := lastOkEntry_of_nodup fails db hnd hfails t.1 t.2 hmem
    simp only [Function.comp, hlast]
    rw [restoreRows_id t.2 (hcols t ht), Prod.mk.eta]
  calc db.map _ = db.map (fun t => t) := List.map_congr_left hpt
    _ = db := List.map_id' db

/-- An example database for the C2 witness: 3 rows across 2 tables. -/
def exampleDb : Database :=
  [("services", [[("id", "1"), ("title", "drain")], [("id", "2"), ("title", "leak")]]),
   ("faqs", [[("id", "1"), ("question", "hours?")]])]

/-- C2: create_database_backup can never succeed — its first statement
evaluates datetime.datetime.now() with the name datetime bound to the
class, raising AttributeError before the try block and before any file is
written; had the timestamp expression not raised, the per-table dump and
the restore loop do round-trip (second conjunct): restoring the backup
document of a database into the emptied same-schema database reproduces
exactly the same rows across the same tables, skipping error entries. -/
theorem C2_backup_restore (db : Database) (fails : String → Bool)
    (hnd : (db.map Prod.fst).Nodup)
    (hfails : ∀ t ∈ db, fails t.1 = false)
    (hcols : ∀ t ∈ db, ∀ r ∈ t.2, (r.map Prod.fst).Nodup
        ∧ r.map Prod.fst = (t.2.headD []).map Prod.fst) :
    (∀ (db2 : Database) (fails2 : String → Bool),
        create_database_backup db2 fails2
          = Except.error (PyErr.attributeError
              "type object datetime.datetime has no attribute datetime"))
      ∧ restore_tables (emptied db) (buildBackupTables db fails) = db
      ∧ totalRows (restore_tables (emptied db) (buildBackupTables db fails))
          = totalRows db := by
  have hrt := restore_of_backup db fails hnd hfails hcols
  exact ⟨fun _ _ => rfl, hrt, by rw [hrt]⟩

theorem C2_backup_restore_witness :
    ((exampleDb.map Prod.fst).Nodup
      ∧ (∀ t ∈ exampleDb, (fun _ => false) t.1 = false)
      ∧ (∀ t ∈ exampleDb, ∀ r ∈ t.2, (r.map Prod.fst).Nodup
          ∧ r.map Prod.fst = (t.2.headD []).map Prod.fst))
    ∧ ((∀ (db2 : Database) (fails2 : String → Bool),
          create_database_backup db2 fails2
            = Except.error (PyErr.attributeError
                "type object datetime.datetime has no attribute datetime"))
      ∧ restore_tables (emptied exampleDb) (buildBackupTables exampleDb (fun _ => false))
          = exampleDb
      ∧ totalRows (restore_tables (emptied exampleDb)
            (buildBackupTables exampleDb (fun _ => false)))
          = totalRows exampleDb) :=
  ⟨⟨by decide, by decide, by decide⟩,
   C2_backup_restore exampleDb (fun _ => false) (by decide) (by decide) (by decide)⟩

end Mayday
